import Mathlib

/-!
Shallow embedding of the core simulation of the arcade defense game
(src/src/App.tsx together with the entity types of the repository).

Modelling conventions:
* JS numbers for coordinates, radii and speeds are modelled as exact
  rationals (`ℚ`); ammunition counts and score are integers (`Int`);
  wall-clock timestamps are integers (`Int`, milliseconds).
* Entity ids (random strings in the source) are modelled as `Nat`;
  nothing in the embedded logic depends on their shape, only on equality.
* `Math.sqrt` appears in the source in two roles.  In collision and
  arrival tests of the form `Math.sqrt d2 < r` it is eliminated exactly:
  for real numbers, `sqrt d2 < r ↔ 0 < r ∧ d2 < r ^ 2` (and for `r ≤ 0`
  the test is false since `sqrt d2 ≥ 0`); the embedded tests use that
  equivalent form.  In the velocity normalisation `dx / dist * speed`
  the value of the square root matters, so the functions that advance a
  Rocket or Missile take the square-root function as an explicit
  parameter `sq : ℚ → ℚ`; no theorem below depends on its values except
  through explicitly stated hypotheses.
* `Array.prototype.forEach` combined with `splice(index, 1)` (removal of
  the current element while iterating) is embedded by `spliceIterFrom`:
  the loop counter increments every iteration even when the current
  element was removed, so the element that slides into the removed
  element's slot is skipped.  `spliceAux` is the structural-recursion
  form of the same loop, proved equivalent (`spliceIterFrom_eq_aux`),
  and is used to evaluate the loop on concrete inputs.
-/

namespace Defense

/-- Logical canvas width in pixels (source constant CANVAS_WIDTH). -/
def CANVAS_WIDTH : ℚ := 800

/-- Logical canvas height in pixels (source constant CANVAS_HEIGHT). -/
def CANVAS_HEIGHT : ℚ := 600

/-- Default blast radius (source constant EXPLOSION_MAX_RADIUS). -/
def EXPLOSION_MAX_RADIUS : ℚ := 35

/-- Blast growth rate per tick (source constant EXPLOSION_SPEED = 1.5). -/
def EXPLOSION_SPEED : ℚ := 3 / 2

/-- Baseline interceptor speed (source constant MISSILE_SPEED). -/
def MISSILE_SPEED : ℚ := 7

/-- A point of the 800x600 logical plane (source interface Point). -/
structure Point where
  x : ℚ
  y : ℚ
deriving DecidableEq, Repr

/-- Squared Euclidean distance between two points. -/
def distSq (a b : Point) : ℚ :=
  (a.x - b.x) ^ 2 + (a.y - b.y) ^ 2

/-- An enemy projectile (source interface Rocket; the purely visual
field `color` is omitted). -/
structure Rocket where
  id : Nat
  start : Point
  current : Point
  target : Point
  speed : ℚ
deriving DecidableEq, Repr

/-- A player interceptor (source interface Missile). -/
structure Missile where
  id : Nat
  start : Point
  current : Point
  target : Point
  speed : ℚ
  batteryIndex : Nat
  targetRocketId : Option Nat
deriving DecidableEq, Repr

/-- A blast effect (source interface Explosion). -/
structure Explosion where
  id : Nat
  x : ℚ
  y : ℚ
  radius : ℚ
  maxRadius : ℚ
  growing : Bool
deriving DecidableEq, Repr

/-- Kind of a pickup (source `type: 'AMMO' | 'SUGAR'`). -/
inductive PowerUpType where
  | AMMO
  | SUGAR
deriving DecidableEq, Repr

/-- A pickup (source interface PowerUp); timestamps in milliseconds. -/
structure PowerUp where
  id : Nat
  x : ℚ
  y : ℚ
  type : PowerUpType
  createdAt : Int
  duration : Int
deriving DecidableEq, Repr

/-- A defense emplacement (source interface Battery). -/
structure Battery where
  x : ℚ
  y : ℚ
  missiles : Int
  maxMissiles : Int
  active : Bool
deriving DecidableEq, Repr

/-- A protected structure (source interface City). -/
structure City where
  x : ℚ
  active : Bool
deriving DecidableEq, Repr

/-- Session status (source enum GameStatus). -/
inductive GameStatus where
  | START
  | PLAYING
  | WON
  | LOST
deriving DecidableEq, Repr

/-- Aggregate of all mutable game state held in React refs and state
hooks by App: status, score, the slow-time flag and the entity pools. -/
structure GameState where
  status : GameStatus
  score : Int
  isSugarActive : Bool
  rockets : List Rocket
  missiles : List Missile
  explosions : List Explosion
  powerUps : List PowerUp
  batteries : List Battery
  cities : List City
deriving DecidableEq, Repr

/-- Embedding of `arr.forEach((a, index) => ...)` where the callback may
replace the current element (in-place mutation, `some a1`) or remove it
with `arr.splice(index, 1)` (`none`), threading extra mutable state `s`.
The JS loop counter `k` increments every iteration even after a splice,
so the element sliding into the removed slot is skipped. -/
def spliceIterFrom (step : σ → α → σ × Option α) (s : σ) (k : Nat) (l : List α) :
    σ × List α :=
  match h : l[k]? with
  | none => (s, l)
  | some a =>
    match step s a with
    | (s1, none) => spliceIterFrom step s1 (k + 1) (l.eraseIdx k)
    | (s1, some a1) => spliceIterFrom step s1 (k + 1) (l.set k a1)
termination_by l.length - k
decreasing_by
  all_goals
    have hk : k < l.length := by
      by_contra hnk
      rw [List.getElem?_eq_none (Nat.le_of_not_lt hnk)] at h
      exact Option.noConfusion h
  · rw [List.length_eraseIdx]
    simp only [hk, if_pos]
    omega
  · rw [List.length_set]
    omega

/-- Structural-recursion form of `spliceIterFrom` starting at index 0:
on removal of the head, the next element is skipped (it slid into the
removed slot and the loop counter has already passed it). -/
def spliceAux (step : σ → α → σ × Option α) : σ → List α → σ × List α
  | s, [] => (s, [])
  | s, a :: as =>
    match step s a with
    | (s1, some a1) =>
      let p := spliceAux step s1 as
      (p.1, a1 :: p.2)
    | (s1, none) =>
      match as with
      | [] => (s1, [])
      | b :: bs =>
        let p := spliceAux step s1 bs
        (p.1, b :: p.2)

/-- Center-in-circle collision test of the Collision Resolver (source:
`Math.sqrt((exp.x - p.x)^2 + (exp.y - p.y)^2) < exp.radius`), with the
square root eliminated exactly: for a real radius the test holds iff the
radius is positive and the squared distance is below the squared radius. -/
def hitTest (e : Explosion) (p : Point) : Bool :=
  decide (0 < e.radius ∧ (e.x - p.x) ^ 2 + (e.y - p.y) ^ 2 < e.radius ^ 2)

/-- Per-tick radius dynamics of one Blast (source App.tsx lines 503-512):
growing blasts gain EXPLOSION_SPEED and flip to fading on reaching the
maximum radius; fading blasts lose half that rate and are removed
(second component `true`) exactly when the new radius is ≤ 0. -/
def stepExplosionRadius (e : Explosion) : Explosion × Bool :=
  if e.growing then
    let r := e.radius + EXPLOSION_SPEED
    ({ e with radius := r, growing := decide (r < e.maxRadius) }, false)
  else
    let r := e.radius - EXPLOSION_SPEED * (1 / 2)
    ({ e with radius := r }, decide (r ≤ 0))

/-- Blast-versus-Rocket body of the Collision Resolver (source lines
514-525): a rocket inside the blast radius is spliced out and the score
gains 20. -/
def blastRocketStep (e : Explosion) (score : Int) (r : Rocket) :
    Int × Option Rocket :=
  if hitTest e r.current then (score + 20, none) else (score, some r)

/-- Rocket sweep of one Blast: the `rocketsRef.current.forEach` loop with
splice-on-hit, threading the score. -/
def blastRocketSweep (e : Explosion) (score : Int) (rockets : List Rocket) :
    Int × List Rocket :=
  spliceIterFrom (blastRocketStep e) score 0 rockets

/-- Ammo pickup effect (source lines 535-539): every active battery is
refilled to its maximum capacity. -/
def refillBatteries (bs : List Battery) : List Battery :=
  bs.map fun b => if b.active then { b with missiles := b.maxMissiles } else b

/-- Effect of consuming one pickup on (batteries, slow-time flag)
(source lines 534-543).  The SUGAR branch calls `setIsSugarActive(true)`
and schedules `setIsSugarActive(false)` 5000 ms later via `setTimeout`;
the timer is modelled separately by `sugarActiveAt`. -/
def applyPowerUpEffect (st : List Battery × Bool) (pu : PowerUp) :
    List Battery × Bool :=
  match pu.type with
  | PowerUpType.AMMO => (refillBatteries st.1, st.2)
  | PowerUpType.SUGAR => (st.1, true)

/-- Blast-versus-PowerUp body of the Collision Resolver (source lines
527-546): a pickup inside the blast radius is consumed and applied. -/
def blastPowerUpStep (e : Explosion) (st : List Battery × Bool) (pu : PowerUp) :
    (List Battery × Bool) × Option PowerUp :=
  if hitTest e ⟨pu.x, pu.y⟩ then (applyPowerUpEffect st pu, none)
  else (st, some pu)

/-- PowerUp sweep of one Blast: the `powerUpsRef.current.forEach` loop
with splice-on-hit. -/
def blastPowerUpSweep (e : Explosion) (st : List Battery × Bool)
    (powerUps : List PowerUp) : (List Battery × Bool) × List PowerUp :=
  spliceIterFrom (blastPowerUpStep e) st 0 powerUps

/-- Mutable state threaded through the explosion loop of the Collision
Resolver: the pools and scalars its callbacks read and write. -/
structure ColState where
  rockets : List Rocket
  powerUps : List PowerUp
  batteries : List Battery
  score : Int
  sugarOn : Bool
deriving DecidableEq, Repr

/-- Body of `explosionsRef.current.forEach` (source lines 503-547): update
the blast radius, splice the blast when it has faded out, then run the
rocket and pickup collision sweeps with the updated blast (the source
runs the sweeps even for a just-removed blast; its radius is then ≤ 0,
so the sweeps cannot hit anything). -/
def explosionStep (cs : ColState) (e : Explosion) : ColState × Option Explosion :=
  let p := stepExplosionRadius e
  let rp := blastRocketSweep p.1 cs.score cs.rockets
  let pp := blastPowerUpSweep p.1 (cs.batteries, cs.sugarOn) cs.powerUps
  (⟨rp.2, pp.2, pp.1.1, rp.1, pp.1.2⟩, if p.2 then none else some p.1)

/-- Collision Resolver pass: the explosion loop over the Blast pool. -/
def collisionPass (cs : ColState) (exps : List Explosion) :
    ColState × List Explosion :=
  spliceIterFrom explosionStep cs 0 exps

/-- Variant of `explosionStep` whose inner sweeps use the structural loop
form; proved equal to `explosionStep` below and used to evaluate the
Collision Resolver on concrete inputs. -/
def explosionStepX (cs : ColState) (e : Explosion) : ColState × Option Explosion :=
  let p := stepExplosionRadius e
  let rp := spliceAux (blastRocketStep p.1) cs.score cs.rockets
  let pp := spliceAux (blastPowerUpStep p.1) (cs.batteries, cs.sugarOn) cs.powerUps
  (⟨rp.2, pp.2, pp.1.1, rp.1, pp.1.2⟩, if p.2 then none else some p.1)

/-- Advance one Rocket along its origin-to-target direction by its speed,
scaled by 0.4 while slow-time is active (source lines 411-419).  `sq`
stands for `Math.sqrt` applied to the squared segment length. -/
def advanceRocket (sq : ℚ → ℚ) (sugarActive : Bool) (r : Rocket) : Rocket :=
  let dx := r.target.x - r.start.x
  let dy := r.target.y - r.start.y
  let dist := sq (dx * dx + dy * dy)
  let vx := dx / dist * r.speed
  let vy := dy / dist * r.speed
  let m : ℚ := if sugarActive then 2 / 5 else 1
  { r with current := ⟨r.current.x + vx * m, r.current.y + vy * m⟩ }

/-- Impact blast spawned where a Rocket reaches the ground (source lines
425-432): radius 2, maximum radius 20, growing. -/
def impactExplosion (r : Rocket) : Explosion :=
  ⟨r.id, r.current.x, r.current.y, 2, 20, true⟩

/-- Ground-impact damage to cities (source lines 435-440): each active
city with x within 30 of the impact x is deactivated and costs 10 score,
clamped at zero, in list order. -/
def damageCities (impactX : ℚ) : List City → Int → List City × Int
  | [], s => ([], s)
  | c :: cs, s =>
    if c.active && decide (|c.x - impactX| < 30) then
      let p := damageCities impactX cs (max 0 (s - 10))
      ({ c with active := false } :: p.1, p.2)
    else
      let p := damageCities impactX cs s
      (c :: p.1, p.2)

/-- Ground-impact damage to batteries (source lines 441-446): each active
battery with x within 30 of the impact x is deactivated and costs 30
score, clamped at zero, in list order. -/
def damageBatteries (impactX : ℚ) : List Battery → Int → List Battery × Int
  | [], s => ([], s)
  | b :: bs, s =>
    if b.active && decide (|b.x - impactX| < 30) then
      let p := damageBatteries impactX bs (max 0 (s - 30))
      ({ b with active := false } :: p.1, p.2)
    else
      let p := damageBatteries impactX bs s
      (b :: p.1, p.2)

/-- Mutable state threaded through the rocket loop of the Physics Step. -/
structure ImpactState where
  cities : List City
  batteries : List Battery
  score : Int
  explosions : List Explosion
deriving DecidableEq, Repr

/-- Body of `rocketsRef.current.forEach` (source lines 411-450): advance
the rocket; when its y reaches the target y, push the impact blast, apply
city and battery damage at the impact point, and splice the rocket. -/
def rocketStep (sq : ℚ → ℚ) (sugarActive : Bool) (st : ImpactState)
    (r : Rocket) : ImpactState × Option Rocket :=
  let r1 := advanceRocket sq sugarActive r
  if decide (r1.current.y ≥ r1.target.y) then
    let exps := st.explosions ++ [impactExplosion r1]
    let pc := damageCities r1.current.x st.cities st.score
    let pb := damageBatteries r1.current.x st.batteries pc.2
    (⟨pc.1, pb.1, pb.2, exps⟩, none)
  else (st, some r1)

/-- Retarget a tracking Missile to its rocket's current position, or drop
the tracking reference when the rocket is gone (source lines 454-463). -/
def retargetMissile (rockets : List Rocket) (m : Missile) : Missile :=
  match m.targetRocketId with
  | none => m
  | some rid =>
    match rockets.find? (fun r => r.id == rid) with
    | some tr => { m with target := tr.current }
    | none => { m with targetRocketId := none }

/-- Advance one Missile along its origin-to-target direction by its speed
(source lines 465-472).  `sq` stands for `Math.sqrt` applied to the
squared segment length; the source divides by it with no zero guard. -/
def advanceMissile (sq : ℚ → ℚ) (m : Missile) : Missile :=
  let dx := m.target.x - m.start.x
  let dy := m.target.y - m.start.y
  let dist := sq (dx * dx + dy * dy)
  { m with current := ⟨m.current.x + dx / dist * m.speed,
                       m.current.y + dy / dist * m.speed⟩ }

/-- Arrival test `Math.sqrt(distToTarget2) < missile.speed` (source lines
474-479), with the square root eliminated exactly as in `hitTest`. -/
def missileArrived (m : Missile) : Bool :=
  decide (0 < m.speed ∧ distSq m.target m.current < m.speed ^ 2)

/-- Detonation radius by owning battery (source lines 480-487): 150 for
the left (nuke) battery, 70 for the right (wide) battery, default 35. -/
def missileBlastRadius (batteryIndex : Nat) : ℚ :=
  if batteryIndex = 0 then 150
  else if batteryIndex = 2 then 70
  else EXPLOSION_MAX_RADIUS

/-- Body of `missilesRef.current.forEach` (source lines 453-492):
retarget, advance, and on arrival push the detonation blast at the
missile's target and splice the missile. -/
def missileStep (sq : ℚ → ℚ) (rockets : List Rocket) (exps : List Explosion)
    (m : Missile) : List Explosion × Option Missile :=
  let m1 := retargetMissile rockets m
  let m2 := advanceMissile sq m1
  if missileArrived m2 then
    (exps ++ [⟨m2.id, m2.target.x, m2.target.y, 2,
               missileBlastRadius m2.batteryIndex, true⟩], none)
  else (exps, some m2)

/-- Body of the pickup-expiry loop (source lines 495-500): a pickup older
than its duration is spliced. -/
def powerUpStep (now : Int) (u : Unit) (pu : PowerUp) : Unit × Option PowerUp :=
  ((), if decide (now - pu.createdAt > pu.duration) then none else some pu)

/-- Per-shot ammunition cost by battery index (source: `i === 0 ? 10 : 1`). -/
def batteryCost (i : Nat) : Int :=
  if i = 0 then 10 else 1

/-- Ammo check after all mutations (source lines 549-555): an active
battery whose ammunition is below its per-shot cost is deactivated. -/
def autoDeactivate : Nat → List Battery → List Battery
  | _, [] => []
  | i, b :: bs =>
    (if b.active && decide (b.missiles < batteryCost i) then
      { b with active := false }
    else b) :: autoDeactivate (i + 1) bs

/-- One frame of the simulation, the `update` callback (source lines
392-562).  The Spawner's random and time-based decisions are externalised
as the parameters `spawnedRocket` and `spawnedPowerUp` (the entities the
tick pushes before the physics passes, if any); `sq` stands for
`Math.sqrt` and `now` for `Date.now()`.  The pass order is the source's:
rockets, missiles, pickup expiry, explosions (the Collision Resolver),
then the battery ammo check and the loss check. -/
def update (sq : ℚ → ℚ) (now : Int) (spawnedRocket : Option Rocket)
    (spawnedPowerUp : Option PowerUp) (g : GameState) : GameState :=
  if g.status ≠ GameStatus.PLAYING then g
  else
    let rockets0 := g.rockets ++ spawnedRocket.toList
    let powerUps0 := g.powerUps ++ spawnedPowerUp.toList
    let rp := spliceIterFrom (rocketStep sq g.isSugarActive)
      ⟨g.cities, g.batteries, g.score, g.explosions⟩ 0 rockets0
    let mp := spliceIterFrom (missileStep sq rp.2) rp.1.explosions 0 g.missiles
    let pue := spliceIterFrom (powerUpStep now) () 0 powerUps0
    let cp := collisionPass ⟨rp.2, pue.2, rp.1.batteries, rp.1.score,
      g.isSugarActive⟩ mp.1
    let batteries2 := autoDeactivate 0 cp.1.batteries
    { status := if batteries2.all (fun b => !b.active) then GameStatus.LOST
                else g.status,
      score := cp.1.score,
      isSugarActive := cp.1.sugarOn,
      rockets := cp.1.rockets,
      missiles := mp.2,
      explosions := cp.2,
      powerUps := cp.1.powerUps,
      batteries := batteries2,
      cities := rp.1.cities }

/-- Battery selection for a fire command at x (source lines 313-326):
among active batteries with ammunition at least their cost, the one with
the smallest |battery.x - x|, earliest index winning ties (the strict
`<` against the running minimum keeps the first encountered). -/
def selectBattery (x : ℚ) : Nat → Option ℚ → Option Nat → List Battery →
    Option Nat
  | _, _, best, [] => best
  | i, minDist, best, b :: bs =>
    let d := |b.x - x|
    let closer := match minDist with
      | none => true
      | some md => decide (d < md)
    if b.active && decide (batteryCost i ≤ b.missiles) && closer then
      selectBattery x (i + 1) (some d) (some i) bs
    else
      selectBattery x (i + 1) minDist best bs

/-- The fire-command handler `handleFire` (source lines 288-390), after
the canvas-coordinate conversion: a command at logical point (x, y).
Fresh missile ids (random strings in the source) are `nid`, `nid + 1`,
... in push order.  Left battery: cost 10, one interceptor at 0.7x speed.
Center battery: up to the 2 rockets nearest the fire point, cost equal to
`max 1 (number selected)`, one tracking interceptor per selected rocket
at 1.5x speed, or a single untracked interceptor at normal speed when no
rocket exists.  Right battery: cost 1, one interceptor at normal speed. -/
def handleFire (nid : Nat) (x y : ℚ) (g : GameState) : GameState :=
  if g.status ≠ GameStatus.PLAYING then g
  else if decide (y > CANVAS_HEIGHT - 80) then g
  else
    match selectBattery x 0 none none g.batteries with
    | none => g
    | some bi =>
      match g.batteries[bi]? with
      | none => g
      | some b =>
        if bi = 0 then
          { g with
            batteries := g.batteries.set 0 { b with missiles := b.missiles - 10 },
            missiles := g.missiles ++
              [⟨nid, ⟨b.x, b.y⟩, ⟨b.x, b.y⟩, ⟨x, y⟩,
                MISSILE_SPEED * (7 / 10), 0, none⟩] }
        else if bi = 1 then
          let sorted := g.rockets.mergeSort fun r1 r2 =>
            decide (distSq r1.current ⟨x, y⟩ ≤ distSq r2.current ⟨x, y⟩)
          let targets := sorted.take 2
          let count : Int := max 1 targets.length
          let batteries1 := g.batteries.set 1 { b with missiles := b.missiles - count }
          if targets.isEmpty then
            { g with
              batteries := batteries1,
              missiles := g.missiles ++
                [⟨nid, ⟨b.x, b.y⟩, ⟨b.x, b.y⟩, ⟨x, y⟩, MISSILE_SPEED, 1, none⟩] }
          else
            { g with
              batteries := batteries1,
              missiles := g.missiles ++
                (targets.enum.map fun ir =>
                  ⟨nid + ir.1, ⟨b.x, b.y⟩, ⟨b.x, b.y⟩, ir.2.current,
                   MISSILE_SPEED * (3 / 2), 1, some ir.2.id⟩) }
        else if bi = 2 then
          { g with
            batteries := g.batteries.set 2 { b with missiles := b.missiles - 1 },
            missiles := g.missiles ++
              [⟨nid, ⟨b.x, b.y⟩, ⟨b.x, b.y⟩, ⟨x, y⟩, MISSILE_SPEED, 2, none⟩] }
        else g

/-- Initial battery lineup (source lines 84-88 and 240-244). -/
def initialBatteries : List Battery :=
  [⟨100, CANVAS_HEIGHT - 40, 50, 50, true⟩,
   ⟨CANVAS_WIDTH / 2, CANVAS_HEIGHT - 40, 100, 100, true⟩,
   ⟨CANVAS_WIDTH - 100, CANVAS_HEIGHT - 40, 50, 50, true⟩]

/-- Initial city lineup (source lines 89-96 and 245-252). -/
def initialCities : List City :=
  [⟨150, true⟩, ⟨250, true⟩, ⟨350, true⟩, ⟨450, true⟩, ⟨550, true⟩, ⟨650, true⟩]

/-- The reset/start handler `initGame` (source lines 233-254): it ignores
the previous state entirely and installs the initial configuration. -/
def initGame (g : GameState) : GameState :=
  ⟨GameStatus.PLAYING, 0, false, [], [], [], [], initialBatteries, initialCities⟩

/-- Slow-time timeline induced by the source's SUGAR branch
(`setIsSugarActive(true); setTimeout(() => setIsSugarActive(false), 5000)`,
lines 540-543): each consumption at time c sets the flag and schedules an
unconditional clear at c + 5000 (the previous timer is never cancelled).
The flag is set at time t iff some consumption happened at or before t
and every clear that has already fired was followed by a strictly later
consumption at or before t.  Simultaneous clear and consumption are
resolved clear-last here; no theorem below exercises that tie. -/
def sugarActiveAt (cs : List Int) (t : Int) : Bool :=
  decide ((∃ c ∈ cs, c ≤ t) ∧
    ∀ c ∈ cs, c + 5000 ≤ t → ∃ c2 ∈ cs, c + 5000 < c2 ∧ c2 ≤ t)

/-- The three score mutations of the simulation (source lines 438, 444
and 522): city hit, battery hit, rocket destroyed. -/
inductive ScoreEvent where
  | cityHit
  | batteryHit
  | rocketDestroyed
deriving DecidableEq, Repr

/-- Score mutation semantics: `setScore(prev => Math.max(0, prev - 10))`,
`setScore(prev => Math.max(0, prev - 30))`, `setScore(prev => prev + 20)`. -/
def applyScoreEvent (s : Int) : ScoreEvent → Int
  | ScoreEvent.cityHit => max 0 (s - 10)
  | ScoreEvent.batteryHit => max 0 (s - 30)
  | ScoreEvent.rocketDestroyed => s + 20

/-! Basic lemmas about the splice-while-iterating combinator. -/

theorem spliceIterFrom_stop (step : σ → α → σ × Option α) (s : σ) (k : Nat)
    (l : List α) (h : l[k]? = none) : spliceIterFrom step s k l = (s, l) := by
  rw [spliceIterFrom.eq_def]
  split
  · rfl
  · rename_i a heq
    rw [h] at heq
    exact Option.noConfusion heq

theorem spliceIterFrom_go (step : σ → α → σ × Option α) (s : σ) (k : Nat)
    (l : List α) (a : α) (h : l[k]? = some a) :
    spliceIterFrom step s k l =
      match step s a with
      | (s1, none) => spliceIterFrom step s1 (k + 1) (l.eraseIdx k)
      | (s1, some a1) => spliceIterFrom step s1 (k + 1) (l.set k a1) := by
  rw [spliceIterFrom.eq_def]
  split
  · rename_i heq
    rw [h] at heq
    exact Option.noConfusion heq
  · rename_i a2 heq
    rw [h] at heq
    cases heq
    rfl

theorem getElem?_append_len (pre : List α) (a : α) (suf : List α) :
    (pre ++ a :: suf)[pre.length]? = some a := by
  rw [List.getElem?_append_right le_rfl]
  simp

theorem eraseIdx_append_len (pre : List α) (a : α) (suf : List α) :
    (pre ++ a :: suf).eraseIdx pre.length = pre ++ suf := by
  induction pre with
  | nil => simp
  | cons p ps ih => simp [List.eraseIdx_cons_succ, ih]

theorem set_append_len (pre : List α) (a a1 : α) (suf : List α) :
    (pre ++ a :: suf).set pre.length a1 = pre ++ a1 :: suf := by
  induction pre with
  | nil => simp
  | cons p ps ih => simp [List.set_cons_succ, ih]

theorem spliceIterFrom_append (step : σ → α → σ × Option α) :
    ∀ (n : Nat) (suf : List α) (s : σ) (pre : List α), suf.length ≤ n →
      spliceIterFrom step s pre.length (pre ++ suf) =
        ((spliceAux step s suf).1, pre ++ (spliceAux step s suf).2) := by
  intro n
  induction n with
  | zero =>
    intro suf s pre h
    have hnil : suf = [] := List.eq_nil_of_length_eq_zero (Nat.le_zero.mp h)
    subst hnil
    rw [spliceIterFrom_stop]
    · simp [spliceAux]
    · simp [List.getElem?_eq_none]
  | succ n ih =>
    intro suf s pre h
    cases suf with
    | nil =>
      rw [spliceIterFrom_stop]
      · simp [spliceAux]
      · simp [List.getElem?_eq_none]
    | cons a as =>
      rw [spliceIterFrom_go step s pre.length _ a (getElem?_append_len pre a as)]
      cases hstep : step s a with
      | mk s1 opt =>
        cases opt with
        | none =>
          dsimp only
          rw [eraseIdx_append_len]
          cases as with
          | nil =>
            rw [spliceIterFrom_stop]
            · simp [spliceAux, hstep]
            · simp [List.getElem?_eq_none]
          | cons b bs =>
            have hb : pre ++ b :: bs = (pre ++ [b]) ++ bs := by simp
            have hlen : pre.length + 1 = (pre ++ [b]).length := by simp
            rw [hb, hlen, ih bs s1 (pre ++ [b]) (by simp at h ⊢; omega)]
            simp [spliceAux, hstep]
        | some a1 =>
          dsimp only
          rw [set_append_len]
          have hb : pre ++ a1 :: as = (pre ++ [a1]) ++ as := by simp
          have hlen : pre.length + 1 = (pre ++ [a1]).length := by simp
          rw [hb, hlen, ih as s1 (pre ++ [a1]) (by simp at h; omega)]
          simp [spliceAux, hstep]

/-- The splice-while-iterating loop started at index 0 agrees with its
structural-recursion form. -/
theorem spliceIterFrom_eq_aux (step : σ → α → σ × Option α) (s : σ)
    (l : List α) : spliceIterFrom step s 0 l = spliceAux step s l := by
  have := spliceIterFrom_append step l.length l s [] le_rfl
  simpa using this

/-- A splice-loop body that removes exactly the elements satisfying `c`
(updating the threaded state by `f`) and keeps every other element and
the state unchanged, run on a pool holding at most one match: it removes
exactly the matching element, because the element skipped after a
removal never matches. -/
theorem spliceAux_cond (step : σ → α → σ × Option α) (c : α → Bool)
    (f : σ → α → σ)
    (h1 : ∀ s a, c a = true → step s a = (f s a, none))
    (h2 : ∀ s a, c a = false → step s a = (s, some a)) :
    ∀ (n : Nat) (l : List α) (s : σ), l.length ≤ n → l.countP c ≤ 1 →
      spliceAux step s l =
        ((match l.find? c with
          | some a => f s a
          | none => s), l.filter fun a => !c a) := by
  intro n
  induction n with
  | zero =>
    intro l s hl _
    have hnil : l = [] := List.eq_nil_of_length_eq_zero (Nat.le_zero.mp hl)
    subst hnil
    simp [spliceAux]
  | succ n ih =>
    intro l s hl hc
    cases l with
    | nil => simp [spliceAux]
    | cons a as =>
      cases hca : c a with
      | false =>
        have hcas : as.countP c ≤ 1 := by
          rw [List.countP_cons] at hc
          simp only [hca] at hc
          omega
        simp only [spliceAux, h2 s a hca]
        rw [ih as s (by simp at hl; omega) hcas]
        simp [List.find?_cons, hca, List.filter_cons]
      | true =>
        have hc0 : as.countP c = 0 := by
          rw [List.countP_cons] at hc
          simp only [hca, if_pos] at hc
          omega
        have hall : ∀ x ∈ as, c x = false := by
          intro x hx
          have := List.countP_eq_zero.mp hc0 x hx
          simpa using this
        cases as with
        | nil =>
          simp only [spliceAux, h1 s a hca]
          simp [List.find?_cons, hca]
        | cons b bs =>
          simp only [spliceAux, h1 s a hca]
          rw [ih bs (f s a) (by simp at hl; omega)
            (by rw [List.countP_cons] at hc0; omega)]
          have hfb : bs.find? c = none := by
            rw [List.find?_eq_none]
            intro x hx
            simp [hall x (List.mem_cons_of_mem b hx)]
          have hflt : bs.filter (fun x => !c x) = bs := by
            rw [List.filter_eq_self]
            intro x hx
            simp [hall x (List.mem_cons_of_mem b hx)]
          simp [List.find?_cons, hca, List.filter_cons, hfb, hflt,
            hall b (List.mem_cons_self b bs)]

/-- The rocket sweep of one blast, when at most one rocket of the pool is
inside the blast radius, destroys exactly the rockets inside the radius
and adds 20 score per destroyed rocket. -/
theorem blastRocketSweep_eq (e : Explosion) (s : Int) (l : List Rocket)
    (hc : l.countP (fun r => hitTest e r.current) ≤ 1) :
    blastRocketSweep e s l =
      (s + 20 * (l.countP (fun r => hitTest e r.current) : Int),
       l.filter fun r => !hitTest e r.current) := by
  rw [blastRocketSweep, spliceIterFrom_eq_aux,
    spliceAux_cond (blastRocketStep e) (fun r => hitTest e r.current)
      (fun s _ => s + 20)
      (fun s r h => by simp [blastRocketStep, h])
      (fun s r h => by simp [blastRocketStep, h]) l.length l s le_rfl hc]
  rcases hfind : l.find? (fun r => hitTest e r.current) with _ | a
  · have h0 : l.countP (fun r => hitTest e r.current) = 0 := by
      rw [List.countP_eq_zero]
      intro x hx
      have := List.find?_eq_none.mp hfind x hx
      simpa using this
    simp [hfind, h0]
  · have hpos : 0 < l.countP (fun r => hitTest e r.current) := by
      rw [List.countP_pos_iff]
      refine ⟨a, List.mem_of_find?_eq_some hfind, ?_⟩
      simpa using List.find?_some hfind
    have h1 : l.countP (fun r => hitTest e r.current) = 1 := by omega
    simp [hfind, h1]

/-- The pickup sweep of one blast, when at most one pickup of the pool is
inside the blast radius, consumes exactly the pickups inside the radius
and applies the consumed pickup's effect. -/
theorem blastPowerUpSweep_eq (e : Explosion) (st : List Battery × Bool)
    (l : List PowerUp)
    (hc : l.countP (fun pu => hitTest e ⟨pu.x, pu.y⟩) ≤ 1) :
    blastPowerUpSweep e st l =
      ((match l.find? (fun pu => hitTest e ⟨pu.x, pu.y⟩) with
        | some pu => applyPowerUpEffect st pu
        | none => st),
       l.filter fun pu => !hitTest e ⟨pu.x, pu.y⟩) := by
  rw [blastPowerUpSweep, spliceIterFrom_eq_aux,
    spliceAux_cond (blastPowerUpStep e) (fun pu => hitTest e ⟨pu.x, pu.y⟩)
      (fun st pu => applyPowerUpEffect st pu)
      (fun s pu h => by simp [blastPowerUpStep, h])
      (fun s pu h => by simp [blastPowerUpStep, h]) l.length l st le_rfl hc]
  rcases hfind : l.find? (fun pu => hitTest e ⟨pu.x, pu.y⟩) with _ | pu <;>
    simp [hfind]

theorem explosionStep_eq_X (cs : ColState) (e : Explosion) :
    explosionStep cs e = explosionStepX cs e := by
  simp [explosionStep, explosionStepX, blastRocketSweep, blastPowerUpSweep,
    spliceIterFrom_eq_aux]

/-- Evaluation form of the Collision Resolver pass: every loop replaced
by its structural form. -/
theorem collisionPass_eval (cs : ColState) (exps : List Explosion) :
    collisionPass cs exps = spliceAux explosionStepX cs exps := by
  rw [collisionPass, spliceIterFrom_eq_aux]
  congr 1
  funext cs e
  exact explosionStep_eq_X cs e

/-- C2 (counterexample): the Collision Resolver pass is not
order-independent.  One growing blast at the origin (current radius 10,
so radius 11.5 during the pass) covers both rockets at (0,0) and (1,0).
Whichever rocket comes first in the pool is destroyed, and the splice
skips the other, which survives: the two iteration orders of the same
rocket pool leave different surviving entities. -/
theorem C2_counterexample :
    ([⟨2, ⟨1, 0⟩, ⟨1, 0⟩, ⟨1, 100⟩, 1⟩,
      ⟨1, ⟨0, 0⟩, ⟨0, 0⟩, ⟨0, 100⟩, 1⟩] : List Rocket).Perm
      [⟨1, ⟨0, 0⟩, ⟨0, 0⟩, ⟨0, 100⟩, 1⟩, ⟨2, ⟨1, 0⟩, ⟨1, 0⟩, ⟨1, 100⟩, 1⟩] ∧
    (collisionPass
      ⟨[⟨1, ⟨0, 0⟩, ⟨0, 0⟩, ⟨0, 100⟩, 1⟩, ⟨2, ⟨1, 0⟩, ⟨1, 0⟩, ⟨1, 100⟩, 1⟩],
        [], [], 0, false⟩
      [⟨7, 0, 0, 10, 35, true⟩]).1.rockets =
      [⟨2, ⟨1, 0⟩, ⟨1, 0⟩, ⟨1, 100⟩, 1⟩] ∧
    (collisionPass
      ⟨[⟨2, ⟨1, 0⟩, ⟨1, 0⟩, ⟨1, 100⟩, 1⟩, ⟨1, ⟨0, 0⟩, ⟨0, 0⟩, ⟨0, 100⟩, 1⟩],
        [], [], 0, false⟩
      [⟨7, 0, 0, 10, 35, true⟩]).1.rockets =
      [⟨1, ⟨0, 0⟩, ⟨0, 0⟩, ⟨0, 100⟩, 1⟩] ∧
    (⟨1, ⟨0, 0⟩, ⟨0, 0⟩, ⟨0, 100⟩, 1⟩ : Rocket) ≠
      ⟨2, ⟨1, 0⟩, ⟨1, 0⟩, ⟨1, 100⟩, 1⟩ := by
  refine ⟨List.Perm.swap _ _ _, ?_, ?_, by simp⟩
  · rw [collisionPass_eval]
    with_unfolding_all rfl
  · rw [collisionPass_eval]
    with_unfolding_all rfl

/-- C2 (amended): the removal-during-iteration of the Collision Resolver
makes the pass order-dependent in general (see the counterexample), but
a blast's rocket sweep is order-independent whenever at most one rocket
of the pool lies inside the blast radius: permuting the rocket pool then
yields the same score and the same surviving rockets up to permutation,
because the element skipped after the single removal is never itself
inside the radius. -/
theorem C2_amended (e : Explosion) (s : Int) (l1 l2 : List Rocket)
    (hperm : l1.Perm l2)
    (hc : l1.countP (fun r => hitTest e r.current) ≤ 1) :
    (blastRocketSweep e s l1).1 = (blastRocketSweep e s l2).1 ∧
    (blastRocketSweep e s l1).2.Perm (blastRocketSweep e s l2).2 := by
  have hc2 : l2.countP (fun r => hitTest e r.current) ≤ 1 := by
    rw [← hperm.countP_eq]
    exact hc
  rw [blastRocketSweep_eq e s l1 hc, blastRocketSweep_eq e s l2 hc2]
  exact ⟨by rw [hperm.countP_eq], hperm.filter _⟩

/-- C2 (witness): concrete instance of the amended statement, one rocket
inside the radius and one outside, in both orders. -/
theorem C2_witness :
    (([⟨1, ⟨0, 0⟩, ⟨0, 0⟩, ⟨0, 100⟩, 1⟩,
       ⟨2, ⟨500, 0⟩, ⟨500, 0⟩, ⟨500, 100⟩, 1⟩] : List Rocket).Perm
      [⟨2, ⟨500, 0⟩, ⟨500, 0⟩, ⟨500, 100⟩, 1⟩,
       ⟨1, ⟨0, 0⟩, ⟨0, 0⟩, ⟨0, 100⟩, 1⟩] ∧
     ([⟨1, ⟨0, 0⟩, ⟨0, 0⟩, ⟨0, 100⟩, 1⟩,
       ⟨2, ⟨500, 0⟩, ⟨500, 0⟩, ⟨500, 100⟩, 1⟩] : List Rocket).countP
      (fun r => hitTest ⟨7, 0, 0, 10, 35, true⟩ r.current) ≤ 1) ∧
    ((blastRocketSweep ⟨7, 0, 0, 10, 35, true⟩ 0
       [⟨1, ⟨0, 0⟩, ⟨0, 0⟩, ⟨0, 100⟩, 1⟩,
        ⟨2, ⟨500, 0⟩, ⟨500, 0⟩, ⟨500, 100⟩, 1⟩]).1 =
     (blastRocketSweep ⟨7, 0, 0, 10, 35, true⟩ 0
       [⟨2, ⟨500, 0⟩, ⟨500, 0⟩, ⟨500, 100⟩, 1⟩,
        ⟨1, ⟨0, 0⟩, ⟨0, 0⟩, ⟨0, 100⟩, 1⟩]).1 ∧
     (blastRocketSweep ⟨7, 0, 0, 10, 35, true⟩ 0
       [⟨1, ⟨0, 0⟩, ⟨0, 0⟩, ⟨0, 100⟩, 1⟩,
        ⟨2, ⟨500, 0⟩, ⟨500, 0⟩, ⟨500, 100⟩, 1⟩]).2.Perm
     (blastRocketSweep ⟨7, 0, 0, 10, 35, true⟩ 0
       [⟨2, ⟨500, 0⟩, ⟨500, 0⟩, ⟨500, 100⟩, 1⟩,
        ⟨1, ⟨0, 0⟩, ⟨0, 0⟩, ⟨0, 100⟩, 1⟩]).2) := by
  have hp : ([⟨1, ⟨0, 0⟩, ⟨0, 0⟩, ⟨0, 100⟩, 1⟩,
      ⟨2, ⟨500, 0⟩, ⟨500, 0⟩, ⟨500, 100⟩, 1⟩] : List Rocket).Perm
      [⟨2, ⟨500, 0⟩, ⟨500, 0⟩, ⟨500, 100⟩, 1⟩,
       ⟨1, ⟨0, 0⟩, ⟨0, 0⟩, ⟨0, 100⟩, 1⟩] := List.Perm.swap _ _ _
  have hcount : ([⟨1, ⟨0, 0⟩, ⟨0, 0⟩, ⟨0, 100⟩, 1⟩,
      ⟨2, ⟨500, 0⟩, ⟨500, 0⟩, ⟨500, 100⟩, 1⟩] : List Rocket).countP
      (fun r => hitTest ⟨7, 0, 0, 10, 35, true⟩ r.current) = 1 := by
    with_unfolding_all rfl
  exact ⟨⟨hp, by omega⟩, C2_amended _ _ _ _ hp (by omega)⟩

/-- C1 (counterexample): slow-time pickups consumed at times 0 and 1000
(so t1 < t2 < t1 + 5000) do not keep the effect active until t2 + 5000:
the timer scheduled by the first consumption is never cancelled and
clears the flag at t1 + 5000 = 5000 < t2 + 5000 = 6000, so the effect is
already off at time 5000. -/
theorem C1_counterexample :
    ((0 : Int) < 1000 ∧ (1000 : Int) < 0 + 5000 ∧
      (5000 : Int) < 1000 + 5000) ∧
    sugarActiveAt [0, 1000] 5000 = false := by
  constructor
  · omega
  · decide

/-- C1 (amended): re-triggering slow-time while it is active does not
restart the 5-second window.  Each consumption schedules an unconditional
clear 5000 ms later and the earlier timer is never cancelled, so for two
consumptions at t1 < t2 < t1 + 5000 the effect is active exactly on the
half-open window [t1, t1 + 5000) — it ends at t1 + 5000, before
t2 + 5000. -/
theorem C1_amended (t1 t2 : Int) (h12 : t1 < t2) (h25 : t2 < t1 + 5000) :
    ∀ t : Int, sugarActiveAt [t1, t2] t = decide (t1 ≤ t ∧ t < t1 + 5000) := by
  intro t
  rw [sugarActiveAt, decide_eq_decide]
  simp only [List.mem_cons, List.not_mem_nil, or_false, List.mem_singleton]
  constructor
  · rintro ⟨⟨c, hc, hct⟩, hall⟩
    constructor
    · rcases hc with rfl | rfl
      · exact hct
      · omega
    · by_contra hge
      rcases hall t1 (Or.inl rfl) (by omega) with ⟨c2, hc2, hgt, hle⟩
      rcases hc2 with rfl | rfl <;> omega
  · rintro ⟨hle, hlt⟩
    refine ⟨⟨t1, Or.inl rfl, hle⟩, ?_⟩
    rintro c (rfl | rfl) hfired <;> omega

/-- C1 (witness): concrete instance of the amended statement at
t1 = 0, t2 = 1000, t = 4999 (still active) with hypotheses discharged. -/
theorem C1_witness :
    ((0 : Int) < 1000 ∧ (1000 : Int) < 0 + 5000) ∧
    sugarActiveAt [0, 1000] 4999 = decide ((0 : Int) ≤ 4999 ∧ (4999 : Int) < 0 + 5000) :=
  ⟨⟨by omega, by omega⟩, C1_amended 0 1000 (by omega) (by omega) 4999⟩

theorem lost_check_aux (bs : List Battery) :
    ((if bs.all fun b => !b.active then GameStatus.LOST else GameStatus.PLAYING) =
        GameStatus.LOST ↔ ∀ b ∈ bs, b.active = false) := by
  by_cases hall : bs.all fun b => !b.active
  · simp only [hall, if_true, true_iff]
    intro b hb
    have := List.all_eq_true.mp hall b hb
    simpa using this
  · simp only [hall, if_false]
    constructor
    · intro hcontra
      exact absurd hcontra (by simp)
    · intro hb
      exfalso
      apply hall
      rw [List.all_eq_true]
      intro b hbmem
      simp [hb b hbmem]

/-- C3: from a running session, one tick ends in the lost status exactly
when every battery of the post-tick state is inactive.  In `update` the
check is the final step of the tick: it reads the battery list after
rocket damage, pickup refills and the low-ammo deactivation pass, and no
battery is mutated afterwards, so the tick never ends lost while some
battery is still active. -/
theorem C3_lost_iff (sq : ℚ → ℚ) (now : Int) (sr : Option Rocket)
    (sp : Option PowerUp) (g : GameState)
    (h : g.status = GameStatus.PLAYING) :
    ((update sq now sr sp g).status = GameStatus.LOST ↔
      ∀ b ∈ (update sq now sr sp g).batteries, b.active = false) := by
  rw [update, h]
  rw [if_neg (by simp)]
  dsimp only
  exact lost_check_aux _

/-- C3 (witness): the loss check of one tick from the initial state. -/
theorem C3_witness :
    (GameState.mk GameStatus.PLAYING 0 false [] [] [] [] initialBatteries
        initialCities).status = GameStatus.PLAYING ∧
    ((update (fun q => q) 0 none none
        (GameState.mk GameStatus.PLAYING 0 false [] [] [] [] initialBatteries
          initialCities)).status = GameStatus.LOST ↔
      ∀ b ∈ (update (fun q => q) 0 none none
        (GameState.mk GameStatus.PLAYING 0 false [] [] [] [] initialBatteries
          initialCities)).batteries, b.active = false) :=
  ⟨rfl, C3_lost_iff (fun q => q) 0 none none _ rfl⟩

/-- C5: blast radius dynamics.  For a live blast (positive radius): a
surviving blast keeps a positive radius; while growing, the radius gains
exactly EXPLOSION_SPEED per tick, the blast is never destroyed in that
phase, and it stays growing exactly while still below the maximum radius
(so phases follow grow-then-fade, and the flag never returns to
growing); while fading, the radius loses exactly half the growth rate
per tick and the blast is removed from the pool by the Collision
Resolver step exactly on the tick the new radius is ≤ 0. -/
theorem C5_blast_radius (e : Explosion) (hpos : 0 < e.radius) :
    ((stepExplosionRadius e).2 = false → 0 < (stepExplosionRadius e).1.radius) ∧
    (e.growing = true →
      (stepExplosionRadius e).1.radius = e.radius + EXPLOSION_SPEED ∧
      (stepExplosionRadius e).2 = false ∧
      ((stepExplosionRadius e).1.growing = true ↔
        (stepExplosionRadius e).1.radius < e.maxRadius)) ∧
    (e.growing = false →
      (stepExplosionRadius e).1.radius = e.radius - EXPLOSION_SPEED * (1 / 2) ∧
      (stepExplosionRadius e).1.growing = false ∧
      ((stepExplosionRadius e).2 = true ↔
        (stepExplosionRadius e).1.radius ≤ 0)) ∧
    (∀ cs : ColState, (explosionStep cs e).2 = none ↔
      (stepExplosionRadius e).2 = true) := by
  cases hg : e.growing with
  | true =>
    refine ⟨?_, ?_, ?_, ?_⟩
    · intro _
      simp only [stepExplosionRadius, hg, if_true]
      have hE : (0 : ℚ) < EXPLOSION_SPEED := by norm_num [EXPLOSION_SPEED]
      linarith
    · intro _
      refine ⟨by simp [stepExplosionRadius, hg], by simp [stepExplosionRadius, hg], ?_⟩
      simp [stepExplosionRadius, hg]
    · intro hcontra
      exact absurd hcontra (by simp)
    · intro cs
      simp [explosionStep, stepExplosionRadius, hg]
  | false =>
    refine ⟨?_, ?_, ?_, ?_⟩
    · intro hdead
      simp [stepExplosionRadius, hg] at hdead ⊢
      linarith
    · intro hcontra
      exact absurd hcontra (by simp)
    · intro _
      refine ⟨by simp [stepExplosionRadius, hg], by simp [stepExplosionRadius, hg], ?_⟩
      simp [stepExplosionRadius, hg]
    · intro cs
      by_cases hdead : e.radius - EXPLOSION_SPEED * (1 / 2) ≤ 0
      · simp [explosionStep, stepExplosionRadius, hg, hdead]
      · simp [explosionStep, stepExplosionRadius, hg, hdead]

/-- C5 (witness): one growing tick of a fresh ground-impact blast. -/
theorem C5_witness :
    (0 : ℚ) < (Explosion.mk 1 0 0 2 20 true).radius ∧
    ((stepExplosionRadius (Explosion.mk 1 0 0 2 20 true)).2 = false →
      0 < (stepExplosionRadius (Explosion.mk 1 0 0 2 20 true)).1.radius) :=
  ⟨by norm_num, (C5_blast_radius ⟨1, 0, 0, 2, 20, true⟩ (by norm_num)).1⟩

theorem scoreEvents_nonneg_aux : ∀ (evs : List ScoreEvent) (s : Int), 0 ≤ s →
    0 ≤ evs.foldl applyScoreEvent s := by
  intro evs
  induction evs with
  | nil =>
    intro s hs
    simpa using hs
  | cons ev evs ih =>
    intro s hs
    simp only [List.foldl_cons]
    apply ih
    cases ev
    · exact le_max_left _ _
    · exact le_max_left _ _
    · simp only [applyScoreEvent]
      omega

/-- C7: the score stays clamped at zero.  Starting from score 0, after
any sequence of the simulation's score mutations (city hit: clamp of
score - 10 at 0; battery hit: clamp of score - 30 at 0; rocket
destroyed: score + 20) the score equals its clamp at zero — it never
goes negative after any mutation (every prefix of a sequence is itself a
sequence). -/
theorem C7_score_clamped (evs : List ScoreEvent) :
    max 0 (evs.foldl applyScoreEvent 0) = evs.foldl applyScoreEvent 0 :=
  max_eq_right (scoreEvents_nonneg_aux evs 0 le_rfl)

/-- C8: after a loss, the start/reset command installs the initial
configuration regardless of the lost state's contents: score 0, the
three batteries active with ammunition 50/100/50 (equal to their
capacities), the six cities active, and all four entity pools empty. -/
theorem C8_reset (g : GameState) (h : g.status = GameStatus.LOST) :
    (initGame g).score = 0 ∧
    (initGame g).batteries.map Battery.missiles = [50, 100, 50] ∧
    (initGame g).batteries.map Battery.maxMissiles = [50, 100, 50] ∧
    (∀ b ∈ (initGame g).batteries, b.active = true) ∧
    (initGame g).batteries.length = 3 ∧
    (∀ c ∈ (initGame g).cities, c.active = true) ∧
    (initGame g).cities.length = 6 ∧
    (initGame g).rockets = [] ∧
    (initGame g).missiles = [] ∧
    (initGame g).explosions = [] ∧
    (initGame g).powerUps = [] := by
  refine ⟨rfl, rfl, rfl, ?_, rfl, ?_, rfl, rfl, rfl, rfl, rfl⟩
  · intro b hb
    simp [initGame, initialBatteries] at hb
    rcases hb with rfl | rfl | rfl <;> rfl
  · intro c hc
    simp [initGame, initialCities] at hc
    rcases hc with rfl | rfl | rfl | rfl | rfl | rfl <;> rfl

/-- C8 (witness): reset from a concrete lost state. -/
theorem C8_witness :
    (GameState.mk GameStatus.LOST 40 true [] [] [] [] [] []).status =
      GameStatus.LOST ∧
    (initGame (GameState.mk GameStatus.LOST 40 true [] [] [] [] [] [])).score = 0 :=
  ⟨rfl, (C8_reset ⟨GameStatus.LOST, 40, true, [], [], [], [], [], []⟩ rfl).1⟩

/-- Reduction of `handleFire` to its center-battery branch when the
selection lands on battery index 1. -/
theorem handleFire_center (nid : Nat) (x y : ℚ) (g : GameState) (b : Battery)
    (hst : g.status = GameStatus.PLAYING)
    (hy : ¬(y > CANVAS_HEIGHT - 80))
    (hsel : selectBattery x 0 none none g.batteries = some 1)
    (hgb : g.batteries[1]? = some b) :
    handleFire nid x y g =
      (let sorted := g.rockets.mergeSort fun r1 r2 =>
        decide (distSq r1.current ⟨x, y⟩ ≤ distSq r2.current ⟨x, y⟩)
      let targets := sorted.take 2
      let count : Int := max 1 targets.length
      let batteries1 := g.batteries.set 1 { b with missiles := b.missiles - count }
      if targets.isEmpty then
        { g with
          batteries := batteries1,
          missiles := g.missiles ++
            [⟨nid, ⟨b.x, b.y⟩, ⟨b.x, b.y⟩, ⟨x, y⟩, MISSILE_SPEED, 1, none⟩] }
      else
        { g with
          batteries := batteries1,
          missiles := g.missiles ++
            (targets.enum.map fun ir =>
              ⟨nid + ir.1, ⟨b.x, b.y⟩, ⟨b.x, b.y⟩, ir.2.current,
               MISSILE_SPEED * (3 / 2), 1, some ir.2.id⟩) }) := by
  rw [handleFire]
  rw [if_neg (by simp [hst])]
  rw [if_neg (by simpa using hy)]
  rw [hsel]
  dsimp only
  rw [hgb]
  dsimp only
  rw [if_neg (by norm_num), if_pos rfl]

/-- C4: a fire command routed to the center battery deducts the number
of selected rockets even past the remaining ammunition.  With the center
battery holding 1 ammunition (which passes the `missiles >= 1`
eligibility check), firing at (400, 300) with at least 2 live rockets
launches two tracking interceptors at 1.5x speed and leaves the center
battery with -1 ammunition. -/
theorem C4_center_overdraw (nid : Nat) (g : GameState)
    (hb : g.batteries =
      [⟨100, 560, 50, 50, true⟩, ⟨400, 560, 1, 100, true⟩,
       ⟨700, 560, 50, 50, true⟩])
    (hr : 2 ≤ g.rockets.length)
    (hst : g.status = GameStatus.PLAYING) :
    (handleFire nid 400 300 g).batteries.map Battery.missiles = [50, -1, 50] ∧
    (handleFire nid 400 300 g).missiles.length = g.missiles.length + 2 ∧
    ∀ m ∈ (handleFire nid 400 300 g).missiles.drop g.missiles.length,
      (∃ rid, m.targetRocketId = some rid) ∧ m.speed = MISSILE_SPEED * (3 / 2) := by
  have hsel : selectBattery 400 0 none none g.batteries = some 1 := by
    rw [hb]
    with_unfolding_all rfl
  have hgb : g.batteries[1]? = some ⟨400, 560, 1, 100, true⟩ := by
    rw [hb]
    rfl
  have hmain := handleFire_center nid 400 300 g ⟨400, 560, 1, 100, true⟩ hst
    (by norm_num [CANVAS_HEIGHT]) hsel hgb
  rw [hmain]
  have hlt : ((g.rockets.mergeSort fun r1 r2 =>
      decide (distSq r1.current ⟨400, 300⟩ ≤ distSq r2.current ⟨400, 300⟩)).take 2).length
      = 2 := by
    rw [List.length_take, List.length_mergeSort]
    omega
  have hne : ((g.rockets.mergeSort fun r1 r2 =>
      decide (distSq r1.current ⟨400, 300⟩ ≤ distSq r2.current ⟨400, 300⟩)).take 2).isEmpty
      = false := by
    rw [List.isEmpty_eq_false]
    intro hnil
    rw [hnil] at hlt
    simp at hlt
  dsimp only
  rw [if_neg (by simp [hne])]
  refine ⟨?_, ?_, ?_⟩
  · rw [hb]
    dsimp only
    rw [hlt]
    norm_num
  · dsimp only
    rw [List.length_append, List.length_map, List.enum_length, hlt]
  · dsimp only
    rw [List.drop_left]
    intro m hm
    rcases List.mem_map.mp hm with ⟨ir, _, rfl⟩
    exact ⟨⟨ir.2.id, rfl⟩, rfl⟩

/-- C4 (witness): the overdraw scenario on a concrete state with two
live rockets and the center battery at 1 ammunition. -/
theorem C4_witness :
    ((GameState.mk GameStatus.PLAYING 0 false
        [⟨1, ⟨10, 0⟩, ⟨10, 50⟩, ⟨10, 580⟩, 1⟩, ⟨2, ⟨20, 0⟩, ⟨20, 60⟩, ⟨20, 580⟩, 1⟩]
        [] [] []
        [⟨100, 560, 50, 50, true⟩, ⟨400, 560, 1, 100, true⟩,
         ⟨700, 560, 50, 50, true⟩] initialCities).batteries =
      [⟨100, 560, 50, 50, true⟩, ⟨400, 560, 1, 100, true⟩,
       ⟨700, 560, 50, 50, true⟩] ∧
     2 ≤ (GameState.mk GameStatus.PLAYING 0 false
        [⟨1, ⟨10, 0⟩, ⟨10, 50⟩, ⟨10, 580⟩, 1⟩, ⟨2, ⟨20, 0⟩, ⟨20, 60⟩, ⟨20, 580⟩, 1⟩]
        [] [] []
        [⟨100, 560, 50, 50, true⟩, ⟨400, 560, 1, 100, true⟩,
         ⟨700, 560, 50, 50, true⟩] initialCities).rockets.length) ∧
    (handleFire 0 400 300 (GameState.mk GameStatus.PLAYING 0 false
        [⟨1, ⟨10, 0⟩, ⟨10, 50⟩, ⟨10, 580⟩, 1⟩, ⟨2, ⟨20, 0⟩, ⟨20, 60⟩, ⟨20, 580⟩, 1⟩]
        [] [] []
        [⟨100, 560, 50, 50, true⟩, ⟨400, 560, 1, 100, true⟩,
         ⟨700, 560, 50, 50, true⟩] initialCities)).batteries.map Battery.missiles =
      [50, -1, 50] :=
  ⟨⟨rfl, by norm_num⟩,
    (C4_center_overdraw 0 _ rfl (by norm_num) rfl).1⟩

/-- C6: a center-battery fire command with zero live rockets creates
exactly one interceptor: untracked, aimed at the fire point, at the
normal missile speed (no 1.5x multiplier), and the center battery's
ammunition decreases by exactly 1 (count = max 1 0 = 1). -/
theorem C6_center_no_rockets (nid : Nat) (x y : ℚ) (g : GameState) (b : Battery)
    (hst : g.status = GameStatus.PLAYING)
    (hy : ¬(y > CANVAS_HEIGHT - 80))
    (hsel : selectBattery x 0 none none g.batteries = some 1)
    (hgb : g.batteries[1]? = some b)
    (hrk : g.rockets = []) :
    (handleFire nid x y g).missiles =
      g.missiles ++ [⟨nid, ⟨b.x, b.y⟩, ⟨b.x, b.y⟩, ⟨x, y⟩, MISSILE_SPEED, 1, none⟩] ∧
    (handleFire nid x y g).batteries =
      g.batteries.set 1 { b with missiles := b.missiles - 1 } := by
  rw [handleFire_center nid x y g b hst hy hsel hgb]
  rw [hrk]
  dsimp only
  rw [List.mergeSort_nil]
  norm_num

/-- C6 (witness): center fire from the initial batteries with an empty
rocket pool. -/
theorem C6_witness :
    ((GameState.mk GameStatus.PLAYING 0 false [] [] [] [] initialBatteries
        initialCities).status = GameStatus.PLAYING ∧
      ¬((300 : ℚ) > CANVAS_HEIGHT - 80) ∧
      selectBattery 400 0 none none (GameState.mk GameStatus.PLAYING 0 false
        [] [] [] [] initialBatteries initialCities).batteries = some 1) ∧
    (handleFire 0 400 300 (GameState.mk GameStatus.PLAYING 0 false [] [] [] []
        initialBatteries initialCities)).missiles =
      [⟨0, ⟨CANVAS_WIDTH / 2, CANVAS_HEIGHT - 40⟩,
        ⟨CANVAS_WIDTH / 2, CANVAS_HEIGHT - 40⟩, ⟨400, 300⟩, MISSILE_SPEED, 1, none⟩] :=
  ⟨⟨rfl, by norm_num [CANVAS_HEIGHT], by with_unfolding_all rfl⟩,
    by
      have h := (C6_center_no_rockets 0 400 300
        (GameState.mk GameStatus.PLAYING 0 false [] [] [] [] initialBatteries
          initialCities)
        ⟨CANVAS_WIDTH / 2, CANVAS_HEIGHT - 40, 100, 100, true⟩ rfl
        (by norm_num [CANVAS_HEIGHT]) (by with_unfolding_all rfl) rfl rfl).1
      simpa using h⟩

theorem fire_point_far_from_battery (bx by1 x y : ℚ)
    (hby : by1 = CANVAS_HEIGHT - 40) (hy : ¬(y > CANVAS_HEIGHT - 80)) :
    distSq ⟨bx, by1⟩ ⟨x, y⟩ ≠ 0 := by
  rw [distSq]
  dsimp only
  have h40 : by1 - y ≥ 40 := by
    rw [hby]
    rw [CANVAS_HEIGHT] at *
    push_neg at hy
    linarith
  have hsq : (by1 - y) ^ 2 ≥ 1600 := by nlinarith
  have hx2 : (bx - x) ^ 2 ≥ 0 := sq_nonneg _
  intro heq
  nlinarith

/-- C9: the missile-advance step divides by the distance from the
missile's start to its target with no zero guard, but for every
untracked interceptor created by a fire command that divisor is nonzero:
an accepted fire point has y ≤ 520 while every battery launch point has
y = 560, so the start and the target of each untracked interceptor
differ (their squared distance — the square of the divisor — is
nonzero), and neither endpoint is ever mutated for an untracked
interceptor. -/
theorem C9_untracked_divisor (nid : Nat) (x y : ℚ) (g : GameState)
    (hby : ∀ b ∈ g.batteries, b.y = CANVAS_HEIGHT - 40) :
    ∀ m ∈ (handleFire nid x y g).missiles.drop g.missiles.length,
      m.targetRocketId = none → distSq m.start m.target ≠ 0 := by
  rw [handleFire]
  by_cases hst : g.status ≠ GameStatus.PLAYING
  · rw [if_pos hst]
    simp [List.drop_length]
  · rw [if_neg hst]
    by_cases hyb : decide (y > CANVAS_HEIGHT - 80) = true
    · rw [if_pos hyb]
      simp [List.drop_length]
    · rw [if_neg hyb]
      have hy : ¬(y > CANVAS_HEIGHT - 80) := by simpa using hyb
      rcases hsel : selectBattery x 0 none none g.batteries with _ | bi
      · simp [List.drop_length]
      · rcases hgb : g.batteries[bi]? with _ | b
        · simp only [hgb]
          simp [List.drop_length]
        · simp only [hgb]
          have hbmem : b ∈ g.batteries := by
            rcases List.getElem?_eq_some.mp hgb with ⟨hlt, hget⟩
            rw [← hget]
            exact List.getElem_mem hlt
          have hbY : b.y = CANVAS_HEIGHT - 40 := hby b hbmem
          by_cases h0 : bi = 0
          · rw [if_pos h0]
            rw [List.drop_left]
            intro m hm _
            rcases List.mem_singleton.mp hm with rfl
            exact fire_point_far_from_battery b.x b.y x y hbY hy
          · rw [if_neg h0]
            by_cases h1 : bi = 1
            · rw [if_pos h1]
              by_cases hempty : ((g.rockets.mergeSort fun r1 r2 =>
                  decide (distSq r1.current ⟨x, y⟩ ≤
                    distSq r2.current ⟨x, y⟩)).take 2).isEmpty = true
              · rw [if_pos hempty]
                rw [List.drop_left]
                intro m hm _
                rcases List.mem_singleton.mp hm with rfl
                exact fire_point_far_from_battery b.x b.y x y hbY hy
              · rw [if_neg hempty]
                rw [List.drop_left]
                intro m hm hmt
                rcases List.mem_map.mp hm with ⟨ir, _, rfl⟩
                simp at hmt
            · rw [if_neg h1]
              by_cases h2 : bi = 2
              · rw [if_pos h2]
                dsimp only
                rw [List.drop_left]
                intro m hm _
                rcases List.mem_singleton.mp hm with rfl
                exact fire_point_far_from_battery b.x b.y x y hbY hy
              · rw [if_neg h2]
                simp [List.drop_length]

/-- C9 (witness): the divisor of the untracked interceptor launched by a
left-battery fire at (120, 300) from the initial batteries is nonzero. -/
theorem C9_witness :
    (∀ b ∈ (GameState.mk GameStatus.PLAYING 0 false [] [] [] []
        initialBatteries initialCities).batteries, b.y = CANVAS_HEIGHT - 40) ∧
    ∀ m ∈ (handleFire 0 120 300 (GameState.mk GameStatus.PLAYING 0 false
        [] [] [] [] initialBatteries initialCities)).missiles.drop
      (GameState.mk GameStatus.PLAYING 0 false [] [] [] [] initialBatteries
        initialCities).missiles.length,
      m.targetRocketId = none → distSq m.start m.target ≠ 0 := by
  have hby : ∀ b ∈ (GameState.mk GameStatus.PLAYING 0 false [] [] [] []
      initialBatteries initialCities).batteries, b.y = CANVAS_HEIGHT - 40 := by
    intro b hb
    simp [initialBatteries] at hb
    rcases hb with rfl | rfl | rfl <;> rfl
  exact ⟨hby, C9_untracked_divisor 0 120 300 _ hby⟩

/-- C10 (counterexample): the ground-impact blast does enter the shared
pool, but it is false that every live rocket inside its current radius
is destroyed by the pass: with the impact blast of a rocket that landed
at (5, 5) (radius 3.5 during the pass) and two rockets at (5, 5) and
(6, 5), both inside the radius, the first is destroyed and the removal
makes the loop skip the second, which survives the pass. -/
theorem C10_counterexample :
    hitTest (stepExplosionRadius
        (impactExplosion ⟨9, ⟨0, 0⟩, ⟨5, 5⟩, ⟨5, 580⟩, 1⟩)).1 (⟨6, 5⟩ : Point) =
      true ∧
    (collisionPass
      ⟨[⟨11, ⟨5, 0⟩, ⟨5, 5⟩, ⟨5, 580⟩, 1⟩, ⟨12, ⟨6, 0⟩, ⟨6, 5⟩, ⟨6, 580⟩, 1⟩],
        [], [], 0, false⟩
      [impactExplosion ⟨9, ⟨0, 0⟩, ⟨5, 5⟩, ⟨5, 580⟩, 1⟩]).1.rockets =
      [⟨12, ⟨6, 0⟩, ⟨6, 5⟩, ⟨6, 580⟩, 1⟩] := by
  constructor
  · with_unfolding_all rfl
  · rw [collisionPass_eval]
    with_unfolding_all rfl

/-- C10 (amended): when a rocket reaches the ground, the impact blast
(radius 2, maximum radius 20) is appended to the same explosion pool as
interceptor detonations and the rocket is removed; and every blast of
that pool — the impact blast carries no marker distinguishing it — is
processed by the same Collision Resolver step: on pools where at most
one rocket and at most one pickup lie inside the blast's updated radius
(so that the loop's removal skip cannot hide a second in-radius entity),
the step destroys exactly the in-radius rockets for +20 score each and
consumes exactly the in-radius pickups, applying their effects. -/
theorem C10_amended (sq : ℚ → ℚ) (sugar : Bool) (st : ImpactState) (r : Rocket)
    (hg : (advanceRocket sq sugar r).current.y ≥
      (advanceRocket sq sugar r).target.y)
    (cs : ColState) (e : Explosion)
    (hcr : cs.rockets.countP
      (fun rk => hitTest (stepExplosionRadius e).1 rk.current) ≤ 1)
    (hcp : cs.powerUps.countP
      (fun pu => hitTest (stepExplosionRadius e).1 ⟨pu.x, pu.y⟩) ≤ 1) :
    (rocketStep sq sugar st r =
      (⟨(damageCities (advanceRocket sq sugar r).current.x st.cities st.score).1,
        (damageBatteries (advanceRocket sq sugar r).current.x st.batteries
          (damageCities (advanceRocket sq sugar r).current.x st.cities
            st.score).2).1,
        (damageBatteries (advanceRocket sq sugar r).current.x st.batteries
          (damageCities (advanceRocket sq sugar r).current.x st.cities
            st.score).2).2,
        st.explosions ++ [impactExplosion (advanceRocket sq sugar r)]⟩, none) ∧
      (impactExplosion (advanceRocket sq sugar r)).maxRadius = 20) ∧
    explosionStep cs e =
      (⟨cs.rockets.filter
          (fun rk => !hitTest (stepExplosionRadius e).1 rk.current),
        cs.powerUps.filter
          (fun pu => !hitTest (stepExplosionRadius e).1 ⟨pu.x, pu.y⟩),
        (match cs.powerUps.find?
            (fun pu => hitTest (stepExplosionRadius e).1 ⟨pu.x, pu.y⟩) with
          | some pu => (applyPowerUpEffect (cs.batteries, cs.sugarOn) pu).1
          | none => cs.batteries),
        cs.score + 20 * (cs.rockets.countP
          (fun rk => hitTest (stepExplosionRadius e).1 rk.current) : Int),
        (match cs.powerUps.find?
            (fun pu => hitTest (stepExplosionRadius e).1 ⟨pu.x, pu.y⟩) with
          | some pu => (applyPowerUpEffect (cs.batteries, cs.sugarOn) pu).2
          | none => cs.sugarOn)⟩,
       if (stepExplosionRadius e).2 then none
       else some (stepExplosionRadius e).1) := by
  constructor
  · constructor
    · simp only [rocketStep]
      rw [if_pos (decide_eq_true hg)]
    · rfl
  · simp only [explosionStep]
    rw [blastRocketSweep_eq _ _ _ hcr, blastPowerUpSweep_eq _ _ _ hcp]
    rcases hfind : cs.powerUps.find?
        (fun pu => hitTest (stepExplosionRadius e).1 ⟨pu.x, pu.y⟩) with _ | pu <;>
      simp [hfind]

/-- C10 (witness): a rocket landing at (0, 1739) spawns its impact blast
and is removed; empty collision pools discharge the count hypotheses. -/
theorem C10_witness :
    ((advanceRocket (fun q => 1) false
        ⟨1, ⟨0, 0⟩, ⟨0, 579⟩, ⟨0, 580⟩, 2⟩).current.y ≥
      (advanceRocket (fun q => 1) false
        ⟨1, ⟨0, 0⟩, ⟨0, 579⟩, ⟨0, 580⟩, 2⟩).target.y ∧
     ([] : List Rocket).countP
      (fun rk => hitTest (stepExplosionRadius ⟨3, 0, 0, 5, 20, true⟩).1
        rk.current) ≤ 1 ∧
     ([] : List PowerUp).countP
      (fun pu => hitTest (stepExplosionRadius ⟨3, 0, 0, 5, 20, true⟩).1
        ⟨pu.x, pu.y⟩) ≤ 1) ∧
    (rocketStep (fun q => 1) false ⟨initialCities, initialBatteries, 0, []⟩
      ⟨1, ⟨0, 0⟩, ⟨0, 579⟩, ⟨0, 580⟩, 2⟩).2 = none := by
  have hcy : (advanceRocket (fun q => 1) false
      ⟨1, ⟨0, 0⟩, ⟨0, 579⟩, ⟨0, 580⟩, 2⟩).current.y = 1739 := by
    with_unfolding_all rfl
  have hty : (advanceRocket (fun q => 1) false
      ⟨1, ⟨0, 0⟩, ⟨0, 579⟩, ⟨0, 580⟩, 2⟩).target.y = 580 := by
    with_unfolding_all rfl
  have hg : (advanceRocket (fun q => 1) false
      ⟨1, ⟨0, 0⟩, ⟨0, 579⟩, ⟨0, 580⟩, 2⟩).current.y ≥
      (advanceRocket (fun q => 1) false
        ⟨1, ⟨0, 0⟩, ⟨0, 579⟩, ⟨0, 580⟩, 2⟩).target.y := by
    rw [hcy, hty]
    norm_num
  have happ := C10_amended (fun q => 1) false
    ⟨initialCities, initialBatteries, 0, []⟩
    ⟨1, ⟨0, 0⟩, ⟨0, 579⟩, ⟨0, 580⟩, 2⟩ hg
    ⟨[], [], [], 0, false⟩ ⟨3, 0, 0, 5, 20, true⟩ (by simp) (by simp)
  refine ⟨⟨hg, by simp, by simp⟩, ?_⟩
  rw [happ.1.1]

end Defense
